import Mathlib

/-!
Verification development for the tiktok-user-scraper repository.

The Python sources under `src/` are shallowly embedded below:

* `src/extractors/tiktok_parser.py` — the extraction pipeline
  (`_safe_int`, `_deep_get`, `_select_primary_user`,
  `_parse_user_from_structured_json`, `_parse_from_open_graph`,
  `_extract_username_from_url`, `_detect_contacts`, `parse_user_from_url`,
  the `TikTokUser` dataclass and the regexes `EMAIL_RE`, `PHONE_RE`);
* `src/extractors/utils_network.py` — the retry/backoff loop of `fetch_html`;
* `src/outputs/exporters.py` — the CSV fieldname collection of `export_to_csv`.

Python values decoded from JSON are modelled by the inductive type `JVal`;
Python dicts become insertion-ordered association lists (JSON decoding
produces unique keys, and every dict operation used by the code — `get`,
`in`, `setdefault`, iteration order — is modelled on that representation).
Code that can raise (`dict(...)` on a non-dict, attribute access on a
non-dict, regex search on a non-string) is modelled in `Except Unit`.
-/

namespace Scraper

/-- Model of a Python float as it can appear while coercing numbers:
a finite rational value, or one of the non-finite values on which
Python's `int(...)` raises. -/
inductive PyFloat where
  | finite (q : ℚ)
  | nan
  | inf
  | ninf

/-- Model of a Python value decoded from JSON (plus `None`), as consumed by
the parser: `null`, booleans, ints, floats, strings, lists and dicts.
Dicts are insertion-ordered association lists with unique keys. -/
inductive JVal where
  | null
  | bool (b : Bool)
  | int (n : ℤ)
  | float (f : PyFloat)
  | str (s : String)
  | arr (xs : List JVal)
  | obj (kvs : List (String × JVal))

/-- Python truthiness (`bool(v)`) for the modelled values: `None`, `False`,
zero, the empty string, the empty list and the empty dict are falsy. -/
def truthy : JVal → Bool
  | .null => false
  | .bool b => b
  | .int n => n != 0
  | .float f =>
    match f with
    | .finite q => q != 0
    | _ => true
  | .str s => s != ""
  | .arr xs => !xs.isEmpty
  | .obj kvs => !kvs.isEmpty

/-- Dict lookup (`d[k]` / `k in d`): the first binding of the key, if any. -/
def jget (kvs : List (String × JVal)) (k : String) : Option JVal :=
  match kvs.find? (fun p => p.1 == k) with
  | some p => some p.2
  | none => none

/-- Python `d.get(k, dflt)`. -/
def pyget (kvs : List (String × JVal)) (k : String) (dflt : JVal) : JVal :=
  (jget kvs k).getD dflt

/-- Python `a or b` on modelled values: `a` when truthy, else `b`. -/
def pyor (a b : JVal) : JVal :=
  if truthy a then a else b

/-- Value of the decimal digit string formed by a list of ASCII digits,
as computed by Python's `int(...)` on such a string. -/
def digitsToNat (l : List Char) : ℕ :=
  l.foldl (fun acc c => acc * 10 + (c.toNat - '0'.toNat)) 0

/-- Embedding of `_safe_int(value, default)` from `tiktok_parser.py`:
`None` gives the default; bools and ints are cast with `int(...)`; finite
floats truncate toward zero while `int(nan)`/`int(inf)` raise and the
surrounding `try` returns the default; strings are stripped of every
non-digit character (`re.sub(r"[^\d]", "", value)`) and parsed, with the
default when nothing remains; every other type gives the default. -/
def safe_int_d (value : JVal) (dflt : ℤ) : ℤ :=
  match value with
  | .null => dflt
  | .bool b => if b then 1 else 0
  | .int n => n
  | .float f =>
    match f with
    | .finite q => if 0 ≤ q then ⌊q⌋ else ⌈q⌉
    | _ => dflt
  | .str s =>
    let cleaned := s.toList.filter Char.isDigit
    if cleaned.isEmpty then dflt else (digitsToNat cleaned : ℤ)
  | _ => dflt

/-- Embedding of `_safe_int(value)` at its single used default, `0`. -/
def safe_int (value : JVal) : ℤ :=
  safe_int_d value 0

/-- Embedding of `_deep_get(data, path, default)`: walk the key path,
returning the default as soon as the current node is not a dict or lacks
the key. -/
def deep_get (data : JVal) (path : List String) (dflt : JVal) : JVal :=
  match path with
  | [] => data
  | k :: rest =>
    match data with
    | .obj kvs =>
      match jget kvs k with
      | some v => deep_get v rest dflt
      | none => dflt
    | _ => dflt

/-- Both-ends whitespace trim, modelling Python's `str.strip()`. -/
def trim (l : List Char) : List Char :=
  ((l.dropWhile Char.isWhitespace).reverse.dropWhile Char.isWhitespace).reverse

/-- Prefix of a character list before the first occurrence of `sep`,
modelling Python's `s.split(sep, 1)[0]`. -/
def stripAfter (sep : Char) (l : List Char) : List Char :=
  l.takeWhile (fun c => !(c == sep))

/-- Scan for the first match of the regex `/@([^/]+)` used by
`_extract_username_from_url` (the trailing `/?` of the source pattern never
affects the captured group).  `re.search` tries each start position left to
right; a position matches when it carries `/`, then `@`, then at least one
character other than `/`; the greedy `[^/]+` then captures the maximal
run of non-`/` characters. -/
def scanHandle : List Char → List Char
  | '/' :: '@' :: c :: rest =>
    if c = '/' then scanHandle ('@' :: c :: rest)
    else c :: rest.takeWhile (fun d => !(d == '/'))
  | _ :: rest => scanHandle rest
  | [] => []

/-- Embedding of `_extract_username_from_url(url)`: strip surrounding
whitespace, return `""` for an empty result, drop the query string and the
fragment (`split("?", 1)[0].split("#", 1)[0]`), then search for
`/@([^/]+)` and return the captured group, or `""` with no match. -/
def extract_username_from_url (url : String) : String :=
  let l := trim url.toList
  match l with
  | [] => ""
  | _ => String.mk (scanHandle (stripAfter '#' (stripAfter '?' l)))

/-- Character class `[\d\s\-]` of `PHONE_RE` (Python `\s` is modelled by
`Char.isWhitespace`). -/
def isPhoneChar (c : Char) : Bool :=
  c.isDigit || c.isWhitespace || c == '-'

/-- Matcher for the part `[\d\s\-]{7,}\d` of `PHONE_RE` after the leading
digit: `k` counts the class characters consumed so far, and the pattern
can close at any point from the seventh one on with a final digit. -/
def phoneTail : ℕ → List Char → Bool
  | _, [] => false
  | k, c :: rest => (decide (7 ≤ k) && c.isDigit) || (isPhoneChar c && phoneTail (k + 1) rest)

/-- Matcher for `\d[\d\s\-]{7,}\d` anchored at the head of the list. -/
def phoneCore : List Char → Bool
  | c :: rest => c.isDigit && phoneTail 0 rest
  | [] => false

/-- Matcher for `PHONE_RE = (\+?\d[\d\s\-]{7,}\d)` anchored at the head of
the list: an optional `+` precedes the digit-delimited body (a position
starting with `+` can only match through the `+` branch, since `+` itself
is not a digit). -/
def phoneAt : List Char → Bool
  | '+' :: rest => phoneCore rest
  | l => phoneCore l

/-- Embedding of `PHONE_RE.search(...) is not None`: some start position
matches the pattern. -/
def searchPhone : List Char → Bool
  | [] => false
  | c :: rest => phoneAt (c :: rest) || searchPhone rest

/-- Character class `[A-Za-z0-9._%+-]` of the local part of `EMAIL_RE`. -/
def isEmailLocal (c : Char) : Bool :=
  c.isAlphanum || c == '.' || c == '_' || c == '%' || c == '+' || c == '-'

/-- Character class `[A-Za-z0-9.-]` of the domain part of `EMAIL_RE`. -/
def isEmailDomain (c : Char) : Bool :=
  c.isAlphanum || c == '.' || c == '-'

/-- Test that a list starts with two ASCII letters, the `[A-Za-z]{2,}`
tail of `EMAIL_RE` (the pattern ends there, so two letters suffice). -/
def twoAlpha : List Char → Bool
  | a :: b :: _ => a.isAlpha && b.isAlpha
  | _ => false

/-- Matcher for the `[A-Za-z0-9.-]+\.[A-Za-z]{2,}` part of `EMAIL_RE`
after the `@`: `k` counts domain characters consumed so far, and at any
point after the first one a literal `.` followed by two letters closes
the match. -/
def emailAfterAt : ℕ → List Char → Bool
  | _, [] => false
  | k, c :: rest =>
    (c == '.' && decide (1 ≤ k) && twoAlpha rest) || (isEmailDomain c && emailAfterAt (k + 1) rest)

/-- Matcher for `EMAIL_RE` anchored at the head of the list: a maximal
nonempty run of local-part characters (backtracking cannot shorten it,
since `@` is not a local-part character), then `@`, then the domain. -/
def emailAt (l : List Char) : Bool :=
  let run := l.takeWhile isEmailLocal
  match l.drop run.length with
  | '@' :: r => decide (1 ≤ run.length) && emailAfterAt 0 r
  | _ => false

/-- Embedding of `EMAIL_RE.search(...) is not None`. -/
def searchEmail : List Char → Bool
  | [] => false
  | c :: rest => emailAt (c :: rest) || searchEmail rest

/-- Embedding of `_detect_contacts(bio)` for a string argument: an empty
bio is falsy and short-circuits to `(False, False)`; otherwise the two
regexes are searched. -/
def detect_contacts (bio : String) : Bool × Bool :=
  if bio = "" then (false, false)
  else (searchEmail bio.toList, searchPhone bio.toList)

/-- Embedding of `_detect_contacts(bio)` as called by the structured
parser, where `bio` is whatever value sat under `"signature"`: a falsy
value short-circuits; a truthy non-string raises `TypeError` inside
`re.search`, modelled as an error. -/
def detect_contacts_py (bio : JVal) : Except Unit (Bool × Bool) :=
  if truthy bio then
    match bio with
    | .str s => .ok (detect_contacts s)
    | _ => .error ()
  else .ok (false, false)

/-- Embedding of the `TikTokUser` dataclass with its field defaults.
Python is untyped, and several fields receive whatever value the decoded
JSON held (`user_info.get("nickname", "")` can surface a non-string), so
those fields are typed `JVal`; fields always built through `str(...)`,
`bool(...)`, `_safe_int` or the contact detector get their actual type. -/
structure TikTokUser where
  id : String := ""
  url : String := ""
  username : JVal := .str ""
  nickname : JVal := .str ""
  bio : JVal := .str ""
  followers : ℤ := 0
  following : ℤ := 0
  likes : ℤ := 0
  videos : ℤ := 0
  verified : Bool := false
  avatar : JVal := .str ""
  region : JVal := .str ""
  language : JVal := .str ""
  hasEmail : Bool := false
  hasPhone : Bool := false
  coverImage : JVal := .str ""
  extra : List (String × JVal) := []

/-- The all-defaults record, `TikTokUser()`. -/
def defaultUser : TikTokUser := {}

/-- Model of a fetched, parsed document at the BeautifulSoup/json
boundary: `sigi` is the decoded JSON of the `script#SIGI_STATE` node when
that node exists and its text decodes (`_parse_from_sigi_state` returns
`{}` in every other case, covered by `none`), and the `og*` fields are
the results of the three `og(...)` meta-tag lookups of
`_parse_from_open_graph`, `""` when the tag or its content is absent. -/
structure Content where
  sigi : Option JVal := none
  ogTitle : String := ""
  ogDescription : String := ""
  ogImage : String := ""

/-- Embedding of `_parse_from_sigi_state`: the decoded blob, or `{}`. -/
def parse_from_sigi_state (c : Content) : JVal :=
  match c.sigi with
  | some v => v
  | none => .obj []

/-- Embedding of `_select_primary_user(data)`.  When `UserModule.users`
is a non-empty dict, take its first entry; `dict(user)` raises on a
non-dict value (modelled as an error; the exotic Python case of an
iterable of pairs is not modelled, no claim exercises it); when the
corresponding `UserModule.stats` entry is a dict — `_deep_get`'s default
`{}` included — `setdefault` appends it under `"stats"` unless the user
entry already has that key.  Otherwise fall back to `UserPage.userInfo`
when it is a dict, else `{}`. -/
def select_primary_user (data : JVal) : Except Unit JVal :=
  match deep_get data ["UserModule", "users"] (.obj []) with
  | .obj ((k0, v0) :: kvs) =>
    let first_key := k0
    let user := pyget ((k0, v0) :: kvs) first_key (.obj [])
    let stats := deep_get data ["UserModule", "stats", first_key] (.obj [])
    match user with
    | .obj ukvs =>
      match stats with
      | .obj _ =>
        match jget ukvs "stats" with
        | some _ => .ok (.obj ukvs)
        | none => .ok (.obj (ukvs ++ [("stats", stats)]))
      | _ => .ok (.obj ukvs)
    | _ => .error ()
  | _ =>
    match deep_get data ["UserPage", "userInfo"] (.obj []) with
    | .obj kvs => .ok (.obj kvs)
    | _ => .ok (.obj [])

/-- Embedding of the avatar selection of
`_parse_user_from_structured_json`, the `or`-chain
`avatarLarger or avatarThumb or avatarMedium or ""` evaluated over the
user dict (note the source tries the thumbnail before the medium
variant). -/
def avatar_of (uis : List (String × JVal)) : JVal :=
  pyor (pyget uis "avatarLarger" .null)
    (pyor (pyget uis "avatarThumb" .null)
      (pyor (pyget uis "avatarMedium" .null) (.str "")))

/-- Model of Python's `str(...)` on the values reaching the `uid`
computation.  Strings, `None`, bools and ints are rendered exactly;
floats, lists and dicts are rendered loosely (their Python `repr` is not
reproduced character by character — no claim depends on those branches). -/
def pyStr : JVal → String
  | .str s => s
  | .null => "None"
  | .bool b => if b then "True" else "False"
  | .int n => toString n
  | .float f =>
    match f with
    | .finite q => toString q
    | .nan => "nan"
    | .inf => "inf"
    | .ninf => "-inf"
  | .arr _ => "[...]"
  | .obj _ => "..."

/-- Field extraction of `_parse_user_from_structured_json` after the
primary user dict `ud` has been selected and found truthy.  The two
layouts are told apart by `"user" in user_data and "stats" in user_data`;
in both, `stats = user_data.get("stats", {}) or {}`.  Attribute access on
a truthy non-dict `user_info` or `stats` raises, modelled as an error;
`_detect_contacts` can likewise raise on a truthy non-string bio. -/
def parse_fields (url : String) (sigi_state : JVal) (ud : List (String × JVal)) :
    Except Unit (Option TikTokUser) :=
  let layout2 := (jget ud "user").isSome && (jget ud "stats").isSome
  let user_info := if layout2 then pyor (pyget ud "user" (.obj [])) (.obj []) else .obj ud
  let stats := pyor (pyget ud "stats" (.obj [])) (.obj [])
  match user_info, stats with
  | .obj uis, .obj sts =>
    let username := pyor (pyget uis "uniqueId" .null) (.str (extract_username_from_url url))
    let nickname := pyget uis "nickname" (.str "")
    let bio := pyget uis "signature" (.str "")
    let avatar := avatar_of uis
    let region := pyor (pyget uis "region" (.str "")) (pyget uis "country" (.str ""))
    let language := pyget uis "language" (.str "")
    let cover_image := pyget uis "coverImage" (.str "")
    let followers := safe_int (pyor (pyget sts "followerCount" .null)
      (pyor (pyget sts "fans" .null)
        (pyor (pyget sts "followers" .null) (pyget sts "follower" .null))))
    let following := safe_int (pyor (pyget sts "followingCount" .null)
      (pyor (pyget sts "following" .null) (pyget sts "followings" .null)))
    let likes := safe_int (pyor (pyget sts "heartCount" .null)
      (pyor (pyget sts "heart" .null)
        (pyor (pyget sts "totalFavorited" .null) (pyget sts "likes" .null))))
    let videos := safe_int (pyor (pyget sts "videoCount" .null)
      (pyor (pyget sts "videos" .null) (pyget sts "video" .null)))
    let uid := pyStr (pyor (pyget uis "id" .null)
      (pyor (pyget uis "uid" .null) (deep_get sigi_state ["UserPage", "uniqueId"] (.str ""))))
    let verified := truthy (pyor (pyget uis "verified" .null) (pyget uis "badgeVerification" .null))
    match detect_contacts_py bio with
    | .ok (has_email, has_phone) =>
      .ok (some { id := uid
                  url := url
                  username := username
                  nickname := nickname
                  bio := bio
                  followers := followers
                  following := following
                  likes := likes
                  videos := videos
                  verified := verified
                  avatar := avatar
                  region := region
                  language := language
                  hasEmail := has_email
                  hasPhone := has_phone
                  coverImage := cover_image
                  extra := [] })
    | .error e => .error e
  | _, _ => .error ()

/-- Embedding of `_parse_user_from_structured_json(url, html)`: a falsy
decoded state or a falsy selected user yields `None` (the strategy falls
through); membership tests on a non-dict primary user would raise, but
`_select_primary_user` only ever returns dicts. -/
def parse_user_from_structured_json (url : String) (c : Content) :
    Except Unit (Option TikTokUser) :=
  let sigi_state := parse_from_sigi_state c
  if truthy sigi_state then
    match select_primary_user sigi_state with
    | .ok user_data =>
      if truthy user_data then
        match user_data with
        | .obj ud => parse_fields url sigi_state ud
        | _ => .error ()
      else .ok none
    | .error e => .error e
  else .ok none

/-- Matcher for the `(.+?)\)` tail of the title pattern: the lazy group
captures the shortest nonempty run of non-newline characters followed by
a literal `)`.  Returns the captured group. -/
def grabGroup2 : List Char → Option (List Char)
  | [] => none
  | c :: rest =>
    if c = '\n' then none
    else
      match rest with
      | ')' :: _ => some [c]
      | _ =>
        match grabGroup2 rest with
        | some g => some (c :: g)
        | none => none

/-- Matcher for the `\s+\(@` middle of the title pattern: a maximal
nonempty whitespace run (backtracking cannot shorten it, since `(` is not
whitespace) followed by the literal `(@`.  Returns the remainder. -/
def afterWs (l : List Char) : Option (List Char) :=
  let ws := l.takeWhile Char.isWhitespace
  if ws.isEmpty then none
  else
    match l.drop ws.length with
    | '(' :: '@' :: r => some r
    | _ => none

/-- Attempt to finish the title pattern after a candidate first group. -/
def tryCont (g1 : List Char) (l : List Char) : Option (List Char × List Char) :=
  match afterWs l with
  | some r =>
    match grabGroup2 r with
    | some g2 => some (g1, g2)
    | none => none
  | none => none

/-- Backtracking loop for `re.match(r"(.+?)\s+\(@(.+?)\)", title)`: the
lazy first group grows one non-newline character at a time, and the first
length whose continuation matches wins. -/
def matchTitleGo (g1rev : List Char) : List Char → Option (List Char × List Char)
  | [] => none
  | c :: rest =>
    if c = '\n' then none
    else
      match tryCont (c :: g1rev).reverse rest with
      | some res => some res
      | none => matchTitleGo (c :: g1rev) rest

/-- Embedding of `re.match(r"(.+?)\s+\(@(.+?)\)", title)`: the two
captured groups, when the anchored pattern matches a prefix of the
title. -/
def matchTitle (l : List Char) : Option (List Char × List Char) :=
  matchTitleGo [] l

/-- Embedding of `_parse_from_open_graph(url, html)` past the meta-tag
lookups carried by `Content`: the title of shape `"nickname (@handle)"`
splits into a trimmed nickname and, only when the URL yields no username,
a trimmed handle; a non-matching title has the `"| TikTok"` suffix
removed and becomes the nickname; the bio is the description, and the
contact flags are computed from it.  The function always returns a
record. -/
def parse_from_open_graph (url : String) (c : Content) : TikTokUser :=
  let title := c.ogTitle
  let description := c.ogDescription
  let image := c.ogImage
  let username0 := extract_username_from_url url
  let nu : String × String :=
    if title ≠ "" then
      match matchTitle title.toList with
      | some (g1, g2) =>
        (String.mk (trim g1), if username0 = "" then String.mk (trim g2) else username0)
      | none => (String.mk (trim (title.replace "| TikTok" "").toList), username0)
    else ("", username0)
  let bio := description
  let contacts := detect_contacts bio
  { defaultUser with
      id := ""
      url := url
      username := .str nu.2
      nickname := .str nu.1
      bio := .str bio
      avatar := .str image
      hasEmail := contacts.1
      hasPhone := contacts.2 }

/-- Embedding of `parse_user_from_url` downstream of `fetch_html`: the
argument `html` is `none` when the fetch produced the empty string
(`if not html`), in which case the minimal record is built from the URL
alone; otherwise the strategies run in order.  Two source branches are
dead and noted here: `isinstance(user, TikTokUser)` on the dict returned
by `_parse_from_sigi_state` is always false, and the final minimal
fallback is unreachable because `_parse_from_open_graph` always returns
a (truthy) record. -/
def parse_user_from_url (url : String) (html : Option Content) : Except Unit TikTokUser :=
  match html with
  | none =>
    .ok { defaultUser with
            id := ""
            url := url
            username := .str (extract_username_from_url url) }
  | some c =>
    match parse_user_from_structured_json url c with
    | .ok (some u) => .ok u
    | .ok none => .ok (parse_from_open_graph url c)
    | .error e => .error e

/-- Outcome of one fetch attempt: a body, or a raised transport error
(timeouts, connection errors and the `raise_for_status` of an error
status are all exceptions caught by the same handler). -/
inductive Outcome where
  | ok (body : String)
  | err

/-- Embedding of the retry loop of `fetch_html` over an attempt-indexed
outcome oracle: starting at attempt number `start` with `n` attempts
remaining, return the fetched body (or `""` after exhaustion) together
with the list of back-off sleeps performed, in order; a failed attempt
`k` appends `min(2 * k, 10)` — the `time.sleep` sits inside the `except`
block, so it runs after every failed attempt, the last one included. -/
def fetch_loop (outcomes : ℕ → Outcome) : ℕ → ℕ → String × List ℕ
  | _, 0 => ("", [])
  | start, n + 1 =>
    match outcomes start with
    | .ok body => (body, [])
    | .err =>
      let r := fetch_loop outcomes (start + 1) n
      (r.1, min (2 * start) 10 :: r.2)

/-- Embedding of `fetch_html(url, session, timeout, retries)`: the loop
`for attempt in range(1, retries + 1)` starts at attempt number 1. -/
def fetch_html_model (retries : ℕ) (outcomes : ℕ → Outcome) : String × List ℕ :=
  fetch_loop outcomes 1 retries

/-- One step of the fieldname collection of `export_to_csv`:
`if key not in fieldnames: fieldnames.append(key)`. -/
def addKey (a : List String) (k : String) : List String :=
  if k ∈ a then a else a ++ [k]

/-- Embedding of the fieldname collection of `export_to_csv`: fold over
the records in order and over each record's keys in order, appending
every key not seen before. -/
def collect_fieldnames (recs : List (List String)) : List String :=
  recs.foldl (fun a r => r.foldl addKey a) []

/-- Embedding of `export_to_csv` at the level of the written file: with
no records the file is written empty (`f.write("")`), modelled as `none`;
otherwise the file is the collected fieldnames as header plus one row per
record, each cell `rowdict.get(key, restval)` with `restval = None`
rendered as the empty cell, modelled as `Option`-valued cells. -/
def export_to_csv {α : Type} (recs : List (List (String × α))) :
    Option (List String × List (List (Option α))) :=
  match recs with
  | [] => none
  | _ :: _ =>
    let fns := collect_fieldnames (recs.map (fun r => r.map Prod.fst))
    some (fns, recs.map (fun r => fns.map (fun k => (r.find? (fun p => p.1 == k)).map Prod.snd)))

/-- Split a character list at `/` separators, following the spec's words
for username derivation: the first component (the text before any
separator, which no separator precedes) is returned apart from the list
of path segments proper, the components that each follow a `/`. -/
def splitSegF : List Char → List Char × List (List Char)
  | [] => ([], [])
  | c :: rest =>
    if c = '/' then ([], (splitSegF rest).1 :: (splitSegF rest).2)
    else (c :: (splitSegF rest).1, (splitSegF rest).2)

/-- Locate, among path segments, the first one beginning with the handle
marker `@` and carrying a nonempty handle text, and return that text;
return the empty text when no such segment exists.  Stated from the
spec: "locate a path segment beginning with a handle-marker character
(`@`) ... return the segment text up to the next path separator; return
empty string if no such segment exists". -/
def handleText : List (List Char) → List Char
  | [] => []
  | s :: rest =>
    match s with
    | '@' :: c :: cs => c :: cs
    | _ => handleText rest

/-- Username derivation stated from the spec's words: strip surrounding
whitespace, strip query string and fragment first, then return the text
of the first path segment beginning with the handle marker. -/
def spec_username (url : String) : String :=
  String.mk (handleText (splitSegF (stripAfter '#' (stripAfter '?' (trim url.toList)))).2)

/-- Declarative reading of `PHONE_RE`: the text contains a substring of
at least 9 characters, each a digit, whitespace or hyphen, beginning and
ending with a digit (`\d[\d\s\-]{7,}\d`; the optional leading `+` is
redundant for existence of a match). -/
def PhoneSub (l : List Char) : Prop :=
  ∃ pre d1 mid d2 post, l = pre ++ d1 :: (mid ++ d2 :: post) ∧
    d1.isDigit = true ∧ d2.isDigit = true ∧ 7 ≤ mid.length ∧
    ∀ c ∈ mid, isPhoneChar c = true

/-- Character class of the claim's phone description: digit, space or
hyphen. -/
def isClaimPhoneChar (c : Char) : Bool :=
  c.isDigit || c == ' ' || c == '-'

/-- The phone-detection property exactly as the claim words it: the text
contains a substring of at least 9 digit/space/hyphen characters (the
optional leading `+` is again redundant for existence). -/
def ClaimPhoneSub (l : List Char) : Prop :=
  ∃ pre t post, l = pre ++ t ++ post ∧ 9 ≤ t.length ∧ ∀ c ∈ t, isClaimPhoneChar c = true

/-- Number of consecutive failed attempts from attempt `start` on, within
the next `n` attempts (the whole window when no attempt in it succeeds). -/
def failStreak (outcomes : ℕ → Outcome) : ℕ → ℕ → ℕ
  | _, 0 => 0
  | start, n + 1 =>
    match outcomes start with
    | .ok _ => 0
    | .err => failStreak outcomes (start + 1) n + 1

/-- Keep-first deduplication: each key at its first occurrence, stating
the spec's "union of all keys across all records, in first-seen order". -/
def firstSeen : List String → List String
  | [] => []
  | k :: rest => k :: firstSeen (rest.filter (fun x => !(x == k)))
termination_by l => l.length
decreasing_by
  simp only [List.length_cons]
  exact Nat.lt_succ_of_le (List.length_filter_le _ _)

/-! ## Theorems -/

/-- Back-off sleeps of the fetch loop: one sleep of `min(2 * k, 10)` per
failed attempt `k`, covering exactly the initial streak of failures. -/
theorem fetch_loop_sleeps (outcomes : ℕ → Outcome) :
    ∀ (n start : ℕ), (fetch_loop outcomes start n).2 =
      (List.range' start (failStreak outcomes start n)).map (fun k => min (2 * k) 10) := by
  intro n
  induction n with
  | zero => intro start; simp [fetch_loop, failStreak]
  | succ n ih =>
    intro start
    cases h : outcomes start with
    | ok body => simp [fetch_loop, failStreak, h]
    | err => simp [fetch_loop, failStreak, h, ih (start + 1), List.range'_succ]

/-- C2 counterexample: numeric coercion of the integer `-1` returns `-1`,
a negative result, refuting "its result is never negative" for every
input value. -/
theorem safe_int_negative_cex : safe_int (.int (-1)) < 0 := by decide

/-- C2 amended: numeric coercion is total (modelled as a total function,
matching the source's catch-all `try`); for `None`, strings, booleans,
lists and dicts the result is never negative, an unparsable string (no
digit characters) yields the default `0`, and the non-finite floats on
which `int(...)` raises also yield the default; an already-numeric int is
cast unchanged, so a negative numeric input keeps its sign. -/
theorem safe_int_amended :
    (∀ s : String, 0 ≤ safe_int (.str s)) ∧
    (∀ s : String, (∀ c ∈ s.toList, c.isDigit = false) → safe_int (.str s) = 0) ∧
    safe_int .null = 0 ∧
    (∀ b, safe_int (.bool b) = if b then 1 else 0) ∧
    (∀ xs, safe_int (.arr xs) = 0) ∧
    (∀ kvs, safe_int (.obj kvs) = 0) ∧
    safe_int (.float .nan) = 0 ∧
    safe_int (.float .inf) = 0 ∧
    (∀ n : ℤ, safe_int (.int n) = n) := by
  refine ⟨?_, ?_, rfl, ?_, fun xs => rfl, fun kvs => rfl, rfl, rfl, fun n => rfl⟩
  · intro s
    simp only [safe_int, safe_int_d]
    split
    · exact le_refl 0
    · exact Int.natCast_nonneg _
  · intro s h
    have hf : s.toList.filter Char.isDigit = [] := by
      rw [List.filter_eq_nil_iff]
      intro c hc
      simp [h c hc]
    simp only [safe_int, safe_int_d, hf]
    rfl
  · intro b
    cases b <;> rfl

/-- C2 witness: the amended statement evaluated at concrete inputs. -/
theorem safe_int_amended_witness :
    0 ≤ safe_int (.str "7x8") ∧ safe_int (.str "no-digits!") = 0 :=
  ⟨safe_int_amended.1 "7x8", safe_int_amended.2.1 "no-digits!" (by decide)⟩

/-- C3 counterexample: a user object with no `avatarLarger` but with both
`avatarMedium` and `avatarThumb` gets the thumbnail, not the medium
variant, refuting the claimed largest-then-medium-then-thumbnail order. -/
theorem avatar_medium_cex :
    avatar_of [("avatarThumb", .str "thumb.jpg"), ("avatarMedium", .str "medium.jpg")] =
      .str "thumb.jpg" ∧
    ¬ avatar_of [("avatarThumb", .str "thumb.jpg"), ("avatarMedium", .str "medium.jpg")] =
      .str "medium.jpg" := by
  constructor
  · rfl
  · intro h
    rw [show avatar_of [("avatarThumb", .str "thumb.jpg"), ("avatarMedium", .str "medium.jpg")] =
      .str "thumb.jpg" from rfl] at h
    simp at h

/-- C3 amended: the avatar is chosen by preferring the largest-resolution
variant, then the thumbnail, then the medium variant: whenever
`avatarLarger` is absent or falsy and `avatarThumb` is truthy — whether
or not a medium variant is present — the thumbnail is selected. -/
theorem avatar_prefers_thumb (uis : List (String × JVal))
    (h1 : truthy (pyget uis "avatarLarger" .null) = false)
    (h2 : truthy (pyget uis "avatarThumb" .null) = true) :
    avatar_of uis = pyget uis "avatarThumb" .null := by
  simp [avatar_of, pyor, h1, h2]

/-- C3 witness: the amended statement at a concrete user object. -/
theorem avatar_prefers_thumb_witness :
    avatar_of [("avatarMedium", .str "m.jpg"), ("avatarThumb", .str "t.jpg")] =
      pyget [("avatarMedium", .str "m.jpg"), ("avatarThumb", .str "t.jpg")] "avatarThumb" .null :=
  avatar_prefers_thumb [("avatarMedium", .str "m.jpg"), ("avatarThumb", .str "t.jpg")] rfl rfl

/-- C4 counterexample: with `maxAttempts = 1` and the single attempt
failing, the claim's "no wait after the final attempt" demands an empty
sleep list, but the code sleeps `min(2 * 1, 10) = 2` after that final
attempt (the `time.sleep` sits inside the `except` block). -/
theorem fetch_final_sleep_cex :
    (fetch_html_model 1 (fun _ => Outcome.err)).2 = [2] ∧
    ¬ (fetch_html_model 1 (fun _ => Outcome.err)).2 = [] := by
  exact ⟨rfl, by decide⟩

/-- C4 amended: after every failed attempt `k` — the final one included —
the fetcher waits exactly `min(2 * k, 10)` time units, a linear,
attempt-indexed, jitter-free curve capped at 10; no wait precedes the
first attempt and no wait follows a successful attempt, so the sleeps
are exactly one per attempt in the initial streak of failures. -/
theorem fetch_backoff_amended (retries : ℕ) (outcomes : ℕ → Outcome) :
    (fetch_html_model retries outcomes).2 =
      (List.range' 1 (failStreak outcomes 1 retries)).map (fun k => min (2 * k) 10) :=
  fetch_loop_sleeps outcomes retries 1

/-- C5: for empty fetched content and the URL
`https://example.com/@jane`, the pipeline returns the minimal record:
the input URL unchanged, the username `"jane"` derived from the URL path,
and every other field at its declared default (`defaultUser`). -/
theorem minimal_record_on_empty_content :
    parse_user_from_url "https://example.com/@jane" none =
      .ok { defaultUser with
              url := "https://example.com/@jane"
              username := .str "jane" } := rfl

/-- C6: with no decodable embedded state and metadata title
`"Jane Doe (@jane)"`, for a URL with no derivable username, extraction
returns `nickname = "Jane Doe"`, `username = "jane"` (the title handle,
because the URL-derived username is empty), and every numeric field —
`followers` included — at its default `0`. -/
theorem metadata_title_extraction :
    parse_user_from_url "https://example.com/page"
        (some { sigi := none
                ogTitle := "Jane Doe (@jane)"
                ogDescription := ""
                ogImage := "" }) =
      .ok { defaultUser with
              url := "https://example.com/page"
              username := .str "jane"
              nickname := .str "Jane Doe" } := rfl

/-- C1: for embedded-state content whose decoded blob carries a
`UserModule.users` mapping with exactly one entry — any key `k`, user
object `{"uniqueId": "jane"}` — and a matching `UserModule.stats` entry
under the same key whose `followerCount` is `"12,345"`, extraction
returns a record with username `"jane"` and followers `12345`, for every
URL and every such stats object. -/
theorem embedded_state_extraction (url k : String) (so : List (String × JVal))
    (hfc : jget so "followerCount" = some (.str "12,345")) :
    ∃ u, parse_user_from_url url (some { sigi := some (.obj [("UserModule",
          .obj [("users", .obj [(k, .obj [("uniqueId", .str "jane")])]),
                ("stats", .obj [(k, .obj so)])])]) }) = .ok u ∧
      u.username = .str "jane" ∧ u.followers = 12345 := by
  have hso : so.isEmpty = false := by
    cases so with
    | nil => simp [jget] at hfc
    | cons p rest => rfl
  have hfind : List.find? (fun p => p.1 == "followerCount") so =
      some ("followerCount", JVal.str "12,345") := by
    unfold jget at hfc
    cases hp : List.find? (fun p => p.1 == "followerCount") so with
    | none => rw [hp] at hfc; cases hfc
    | some p =>
      rw [hp] at hfc
      have h1 := List.find?_some hp
      obtain ⟨a, b⟩ := p
      simp only [beq_iff_eq] at h1
      simp only [Option.some.injEq] at hfc
      rw [h1, hfc]
  refine ⟨{ defaultUser with
      url := url
      username := .str "jane"
      followers := safe_int (.str "12,345")
      following := safe_int (pyor (pyget so "followingCount" .null)
        (pyor (pyget so "following" .null) (pyget so "followings" .null)))
      likes := safe_int (pyor (pyget so "heartCount" .null)
        (pyor (pyget so "heart" .null)
          (pyor (pyget so "totalFavorited" .null) (pyget so "likes" .null))))
      videos := safe_int (pyor (pyget so "videoCount" .null)
        (pyor (pyget so "videos" .null) (pyget so "video" .null))) }, ?_, rfl, rfl⟩
  simp [parse_user_from_url, parse_user_from_structured_json, parse_from_sigi_state,
    select_primary_user, parse_fields, deep_get, jget, pyget, truthy, pyor, avatar_of,
    detect_contacts_py, pyStr, List.find?, hfind, hso, defaultUser]

/-- C1 witness: the theorem applied at a concrete key, stats object and
URL. -/
theorem embedded_state_extraction_witness :
    ∃ u, parse_user_from_url "https://www.tiktok.com/@jane"
        (some { sigi := some (.obj [("UserModule",
          .obj [("users", .obj [("77", .obj [("uniqueId", .str "jane")])]),
                ("stats", .obj [("77", .obj [("followerCount", .str "12,345")])])])]) }) =
      .ok u ∧ u.username = .str "jane" ∧ u.followers = 12345 :=
  embedded_state_extraction "https://www.tiktok.com/@jane" "77"
    [("followerCount", .str "12,345")] rfl

/-- C10: in `_select_primary_user`, when the selected `UserModule.users`
entry itself carries a `"stats"` key, `setdefault` leaves the entry
unchanged and the parallel `UserModule.stats` entry under the same key is
ignored; the module-level stats entry is appended under `"stats"` exactly
when the user entry has no such key of its own. -/
theorem nested_stats_precedence (k : String) (uo so : List (String × JVal)) :
    (∀ v, jget uo "stats" = some v →
      select_primary_user (.obj [("UserModule",
          .obj [("users", .obj [(k, .obj uo)]), ("stats", .obj [(k, .obj so)])])]) =
        .ok (.obj uo)) ∧
    (jget uo "stats" = none →
      select_primary_user (.obj [("UserModule",
          .obj [("users", .obj [(k, .obj uo)]), ("stats", .obj [(k, .obj so)])])]) =
        .ok (.obj (uo ++ [("stats", .obj so)]))) := by
  constructor
  · intro v hv
    unfold jget at hv
    simp [select_primary_user, deep_get, jget, pyget, List.find?]
    rw [hv]
  · intro hn
    unfold jget at hn
    simp [select_primary_user, deep_get, jget, pyget, List.find?]
    rw [hn]

/-- C10 witness: both branches of the theorem at concrete inputs — a
user entry with its own nested stats keeps it, one without gets the
module-level stats appended. -/
theorem nested_stats_precedence_witness :
    select_primary_user (.obj [("UserModule",
        .obj [("users", .obj [("id1", .obj [("uniqueId", .str "a"), ("stats", .obj [("fans", .int 7)])])]),
              ("stats", .obj [("id1", .obj [("fans", .int 9)])])])]) =
      .ok (.obj [("uniqueId", .str "a"), ("stats", .obj [("fans", .int 7)])]) ∧
    select_primary_user (.obj [("UserModule",
        .obj [("users", .obj [("id1", .obj [("uniqueId", .str "a")])]),
              ("stats", .obj [("id1", .obj [("fans", .int 9)])])])]) =
      .ok (.obj [("uniqueId", .str "a"), ("stats", .obj [("fans", .int 9)])]) :=
  ⟨(nested_stats_precedence "id1" [("uniqueId", .str "a"), ("stats", .obj [("fans", .int 7)])]
      [("fans", .int 9)]).1 (.obj [("fans", .int 7)]) rfl,
   (nested_stats_precedence "id1" [("uniqueId", .str "a")] [("fans", .int 9)]).2 rfl⟩

/-- First component of the segment split: the text before any separator. -/
theorem splitSegF_fst (l : List Char) :
    (splitSegF l).1 = l.takeWhile (fun c => !(c == '/')) := by
  induction l with
  | nil => rfl
  | cons c rest ih =>
    by_cases hc : c = '/'
    · subst hc; simp [splitSegF]
    · have hb : (c == '/') = false := by simp [hc]
      simp [splitSegF, List.takeWhile, hb, hc, ih]

/-- The regex scan skips a non-separator head character. -/
theorem scanHandle_cons_ne (c : Char) (rest : List Char) (h : ¬ c = '/') :
    scanHandle (c :: rest) = scanHandle rest := by
  rw [scanHandle.eq_def]
  split
  · rename_i heq; injection heq with h1 h2; exact absurd h1 h
  · rename_i heq; injection heq with h1 h2; rw [h2]
  · rename_i heq; cases heq

/-- The regex scan skips a separator not followed by the handle marker. -/
theorem scanHandle_slash_ne (d : Char) (r : List Char) (h : ¬ d = '@') :
    scanHandle ('/' :: d :: r) = scanHandle (d :: r) := by
  rw [scanHandle.eq_def]
  split
  · rename_i heq; injection heq with h1 h2; injection h2 with h3 h4; exact absurd h3 h
  · rename_i heq; injection heq with h1 h2; rw [h2]
  · rename_i heq; cases heq

/-- A leading segment that is not marker-plus-text is skipped by the
segment search. -/
theorem handleText_cons_not_at (s : List Char) (L : List (List Char))
    (h : ∀ c cs, s ≠ '@' :: c :: cs) : handleText (s :: L) = handleText L := by
  rw [handleText.eq_def]
  split
  · rename_i heq; cases heq
  · rename_i s2 rest2 heq
    injection heq with h1 h2
    subst h1
    subst h2
    split
    · rename_i a b
      exact absurd rfl (h a b)
    · rfl

/-- Core of C7: the left-to-right regex scan for `/@([^/]+)` computes
exactly the spec's description — the text of the first path segment that
begins with the handle marker and carries a nonempty handle. -/
theorem scanHandle_eq (l : List Char) :
    scanHandle l = handleText (splitSegF l).2 := by
  induction l using scanHandle.induct
  case case4 => rfl
  case case1 rest ih1 =>
    have hL : scanHandle ('/' :: '@' :: '/' :: rest) = scanHandle ('@' :: '/' :: rest) := by
      simp [scanHandle]
    rw [hL, ih1]
    have h2 : splitSegF ('/' :: '@' :: '/' :: rest) =
        ([], (splitSegF ('@' :: '/' :: rest)).1 :: (splitSegF ('@' :: '/' :: rest)).2) := by
      simp [splitSegF]
    rw [h2]
    have hs1 : ∀ c cs, (splitSegF ('@' :: '/' :: rest)).1 ≠ '@' :: c :: cs := by
      intro c cs hcc
      simp [splitSegF] at hcc
    exact (handleText_cons_not_at _ _ hs1).symm
  case case2 c rest hc =>
    have hb : (c == '/') = false := by simp [hc]
    simp [scanHandle, splitSegF, handleText, hc, hb, splitSegF_fst]
  case case3 head rest hne ih =>
    by_cases hh : head = '/'
    · subst hh
      cases rest with
      | nil => rfl
      | cons d rest' =>
        by_cases hd : d = '@'
        · subst hd
          cases rest' with
          | nil => rfl
          | cons e rest'' => exact (hne e rest'' rfl rfl).elim
        · have h1 : scanHandle ('/' :: d :: rest') = scanHandle (d :: rest') :=
            scanHandle_slash_ne d rest' hd
          rw [h1, ih]
          have h2 : splitSegF ('/' :: d :: rest') =
              ([], (splitSegF (d :: rest')).1 :: (splitSegF (d :: rest')).2) := by
            simp [splitSegF]
          rw [h2]
          have hs1 : ∀ c cs, (splitSegF (d :: rest')).1 ≠ '@' :: c :: cs := by
            intro c cs hcc
            by_cases hds : d = '/'
            · subst hds; simp [splitSegF] at hcc
            · have h3 : splitSegF (d :: rest') =
                  (d :: (splitSegF rest').1, (splitSegF rest').2) := by
                simp [splitSegF, hds]
              rw [h3] at hcc
              simp at hcc
              exact hd hcc.1
          exact (handleText_cons_not_at _ _ hs1).symm
    · rw [scanHandle_cons_ne head rest hh, ih]
      have h2 : splitSegF (head :: rest) =
          (head :: (splitSegF rest).1, (splitSegF rest).2) := by
        simp [splitSegF, hh]
      rw [h2]

/-- C7: for every URL, the code's username derivation equals the spec's
description — after trimming and stripping query string and fragment,
the text of the first path segment beginning with the handle marker `@`
(up to the next separator, with a nonempty handle text), and the empty
string when no such segment exists.  Query string and fragment cannot
influence the result on either side, since both are removed before the
segment search. -/
theorem username_derivation_matches_spec (url : String) :
    extract_username_from_url url = spec_username url := by
  unfold extract_username_from_url spec_username
  cases h : trim url.toList with
  | nil => rfl
  | cons c rest => exact congrArg String.mk (scanHandle_eq _)

/-- Membership in the keep-first deduplication is membership in the
original list. -/
theorem firstSeen_mem (x : String) (l : List String) : x ∈ firstSeen l ↔ x ∈ l := by
  induction l using firstSeen.induct with
  | case1 => simp [firstSeen]
  | case2 k rest ih =>
    simp only [firstSeen, List.mem_cons, ih, List.mem_filter]
    by_cases hx : x = k
    · simp [hx]
    · simp [hx]

/-- The keep-first deduplication has no duplicate keys. -/
theorem firstSeen_nodup (l : List String) : (firstSeen l).Nodup := by
  induction l using firstSeen.induct with
  | case1 => simp [firstSeen]
  | case2 k rest ih =>
    rw [show firstSeen (k :: rest) = k :: firstSeen (rest.filter (fun x => !(x == k))) from by
      simp [firstSeen]]
    rw [List.nodup_cons]
    refine ⟨?_, ih⟩
    intro hk
    rw [firstSeen_mem] at hk
    simp [List.mem_filter] at hk

/-- The fieldname fold of `export_to_csv` appends, after the accumulator,
the keep-first deduplication of the keys not yet seen. -/
theorem foldl_addKey_eq (l : List String) :
    ∀ a, l.foldl addKey a = a ++ firstSeen (l.filter (fun x => !(decide (x ∈ a)))) := by
  induction l with
  | nil => intro a; simp [firstSeen]
  | cons k rest ih =>
    intro a
    by_cases hk : k ∈ a
    · have h1 : addKey a k = a := by simp [addKey, hk]
      have h2 : ¬ ((fun x => !(decide (x ∈ a))) k = true) := by simp [hk]
      rw [List.foldl_cons, h1, ih a, @List.filter_cons_of_neg _ (fun x => !(decide (x ∈ a))) k rest h2]
    · have h1 : addKey a k = a ++ [k] := by simp [addKey, hk]
      have h2 : ((fun x => !(decide (x ∈ a))) k = true) := by simp [hk]
      rw [List.foldl_cons, h1, ih (a ++ [k]), @List.filter_cons_of_pos _ (fun x => !(decide (x ∈ a))) k rest h2]
      rw [show firstSeen (k :: rest.filter (fun x => !(decide (x ∈ a)))) =
          k :: firstSeen ((rest.filter (fun x => !(decide (x ∈ a)))).filter
            (fun x => !(x == k))) from by simp [firstSeen]]
      rw [List.filter_filter]
      have h3 : rest.filter (fun x => !(decide (x ∈ a ++ [k]))) =
          rest.filter (fun x => !(x == k) && !(decide (x ∈ a))) := by
        apply List.filter_congr
        intro x hx
        by_cases hx1 : x = k
        · subst hx1; simp
        · by_cases hx2 : x ∈ a <;> simp [hx1, hx2]
      rw [h3, List.append_assoc]
      rfl

/-- C9: the tabular export writes a completely empty file for the empty
record list (no header row), and for every non-empty record list its
header row is the union of all keys across all records in first-seen
order: the keep-first deduplication of the concatenated key lists, which
is duplicate-free and holds exactly the keys occurring in some record. -/
theorem csv_header_union_first_seen {α : Type} (recs : List (List (String × α))) :
    (recs = [] → export_to_csv recs = none) ∧
    (recs ≠ [] → ∃ rows, export_to_csv recs =
        some (firstSeen ((recs.map (fun r => r.map Prod.fst)).flatten), rows) ∧
      (firstSeen ((recs.map (fun r => r.map Prod.fst)).flatten)).Nodup ∧
      ∀ k, k ∈ firstSeen ((recs.map (fun r => r.map Prod.fst)).flatten) ↔
        ∃ r, r ∈ recs ∧ k ∈ r.map Prod.fst) := by
  have hc : collect_fieldnames (recs.map (fun r => r.map Prod.fst)) =
      firstSeen ((recs.map (fun r => r.map Prod.fst)).flatten) := by
    unfold collect_fieldnames
    rw [← List.foldl_flatten]
    rw [foldl_addKey_eq]
    rw [show ((recs.map (fun r => r.map Prod.fst)).flatten).filter
        (fun x => !(decide (x ∈ ([] : List String)))) =
        (recs.map (fun r => r.map Prod.fst)).flatten from
      List.filter_eq_self.mpr (fun a ha => by simp)]
    rfl
  constructor
  · intro h; subst h; rfl
  · intro h
    cases hrec : recs with
    | nil => exact absurd hrec h
    | cons r rs =>
      subst hrec
      refine ⟨(r :: rs).map (fun rr =>
          (firstSeen (((r :: rs).map (fun x => x.map Prod.fst)).flatten)).map
            (fun k => (rr.find? (fun p => p.1 == k)).map Prod.snd)), ?_, firstSeen_nodup _, ?_⟩
      · unfold export_to_csv
        rw [hc]
      · intro k
        rw [firstSeen_mem]
        simp [List.mem_flatten, List.mem_map]

/-- C9 witness: the statement applied at a concrete two-record list with
overlapping keys. -/
theorem csv_header_union_first_seen_witness :
    ∃ rows, export_to_csv [[("a", (1 : ℤ)), ("b", 2)], [("b", 3), ("c", 4)]] =
        some (firstSeen (([[("a", (1 : ℤ)), ("b", 2)], [("b", 3), ("c", 4)]].map
          (fun r => r.map Prod.fst)).flatten), rows) ∧
      (firstSeen (([[("a", (1 : ℤ)), ("b", 2)], [("b", 3), ("c", 4)]].map
          (fun r => r.map Prod.fst)).flatten)).Nodup ∧
      ∀ k, k ∈ firstSeen (([[("a", (1 : ℤ)), ("b", 2)], [("b", 3), ("c", 4)]].map
          (fun r => r.map Prod.fst)).flatten) ↔
        ∃ r, r ∈ [[("a", (1 : ℤ)), ("b", 2)], [("b", 3), ("c", 4)]] ∧ k ∈ r.map Prod.fst :=
  (csv_header_union_first_seen _).2 (by decide)

/-- Soundness of the phone-tail matcher: a success splits the input into
class characters, a final digit and a remainder, with the length bound. -/
theorem phoneTail_sound : ∀ (rest : List Char) (k : ℕ), phoneTail k rest = true →
    ∃ mid d2 post, rest = mid ++ d2 :: post ∧ (∀ c ∈ mid, isPhoneChar c = true) ∧
      d2.isDigit = true ∧ 7 ≤ k + mid.length := by
  intro rest
  induction rest with
  | nil => intro k h; cases h
  | cons c rest ih =>
    intro k h
    simp only [phoneTail, Bool.or_eq_true, Bool.and_eq_true, decide_eq_true_eq] at h
    rcases h with ⟨hk, hd⟩ | ⟨hc, ht⟩
    · exact ⟨[], c, rest, rfl, by simp, hd, by simpa using hk⟩
    · obtain ⟨mid, d2, post, heq, hmid, hd2, hlen⟩ := ih (k + 1) ht
      refine ⟨c :: mid, d2, post, by rw [heq]; rfl, ?_, hd2, ?_⟩
      · intro x hx
        rcases List.mem_cons.mp hx with h1 | h1
        · subst h1; exact hc
        · exact hmid x h1
      · simp only [List.length_cons]
        omega

/-- Completeness of the phone-tail matcher on any class-digit split. -/
theorem phoneTail_complete : ∀ (mid : List Char) (k : ℕ) (d2 : Char) (post : List Char),
    (∀ c ∈ mid, isPhoneChar c = true) → d2.isDigit = true → 7 ≤ k + mid.length →
    phoneTail k (mid ++ d2 :: post) = true := by
  intro mid
  induction mid with
  | nil =>
    intro k d2 post _ hd2 hlen
    simp only [List.nil_append, phoneTail, Bool.or_eq_true, Bool.and_eq_true, decide_eq_true_eq]
    exact Or.inl ⟨by simpa using hlen, hd2⟩
  | cons c mid ih =>
    intro k d2 post hmid hd2 hlen
    simp only [List.cons_append, phoneTail, Bool.or_eq_true, Bool.and_eq_true]
    refine Or.inr ⟨hmid c (List.mem_cons_self c mid), ?_⟩
    refine ih (k + 1) d2 post (fun x hx => hmid x (List.mem_cons_of_mem c hx)) hd2 ?_
    simp only [List.length_cons] at hlen
    omega

/-- Soundness of the anchored phone-body matcher. -/
theorem phoneCore_sound (l : List Char) (h : phoneCore l = true) :
    ∃ d1 mid d2 post, l = d1 :: (mid ++ d2 :: post) ∧ d1.isDigit = true ∧
      d2.isDigit = true ∧ 7 ≤ mid.length ∧ ∀ c ∈ mid, isPhoneChar c = true := by
  cases l with
  | nil => cases h
  | cons c rest =>
    simp only [phoneCore, Bool.and_eq_true] at h
    obtain ⟨hd, ht⟩ := h
    obtain ⟨mid, d2, post, heq, hmid, hd2, hlen⟩ := phoneTail_sound rest 0 ht
    exact ⟨c, mid, d2, post, by rw [heq], hd, hd2, by simpa using hlen, hmid⟩

/-- Completeness of the anchored phone-body matcher. -/
theorem phoneCore_complete (d1 : Char) (mid : List Char) (d2 : Char) (post : List Char)
    (h1 : d1.isDigit = true) (h2 : d2.isDigit = true) (hlen : 7 ≤ mid.length)
    (hmid : ∀ c ∈ mid, isPhoneChar c = true) :
    phoneCore (d1 :: (mid ++ d2 :: post)) = true := by
  simp only [phoneCore, Bool.and_eq_true]
  exact ⟨h1, phoneTail_complete mid 0 d2 post hmid h2 (by simpa using hlen)⟩

/-- A phone-body match is a phone match (the optional `+` adds nothing:
a body never starts with `+`, since `+` is not a digit). -/
theorem phoneAt_of_core (l : List Char) (h : phoneCore l = true) : phoneAt l = true := by
  rw [phoneAt.eq_def]
  split
  · rename_i rest
    simp only [phoneCore] at h
    rw [show ('+'.isDigit) = false from rfl] at h
    simp at h
  · exact h

/-- A phone-body match anywhere in the list is found by the search. -/
theorem searchPhone_append (pre s : List Char) (h : phoneCore s = true) :
    searchPhone (pre ++ s) = true := by
  induction pre with
  | nil =>
    cases s with
    | nil => cases h
    | cons c rest =>
      simp only [List.nil_append, searchPhone, Bool.or_eq_true]
      exact Or.inl (phoneAt_of_core _ h)
  | cons c pre' ih =>
    simp only [List.cons_append, searchPhone, Bool.or_eq_true]
    exact Or.inr ih

/-- Soundness of the anchored phone matcher with optional `+`. -/
theorem phoneAt_sound (l : List Char) (h : phoneAt l = true) : PhoneSub l := by
  rw [phoneAt.eq_def] at h
  split at h
  · rename_i rest
    obtain ⟨d1, mid, d2, post, heq, h1, h2, hlen, hmid⟩ := phoneCore_sound rest h
    exact ⟨['+'], d1, mid, d2, post, by rw [heq]; rfl, h1, h2, hlen, hmid⟩
  · obtain ⟨d1, mid, d2, post, heq, h1, h2, hlen, hmid⟩ := phoneCore_sound _ h
    exact ⟨[], d1, mid, d2, post, by rw [heq]; rfl, h1, h2, hlen, hmid⟩

/-- The modelled `PHONE_RE.search` succeeds exactly on texts containing a
substring matching the declarative reading of the pattern. -/
theorem searchPhone_iff (l : List Char) : searchPhone l = true ↔ PhoneSub l := by
  constructor
  · intro h
    induction l with
    | nil => cases h
    | cons c rest ih =>
      simp only [searchPhone, Bool.or_eq_true] at h
      rcases h with h | h
      · exact phoneAt_sound _ h
      · obtain ⟨pre, d1, mid, d2, post, heq, h1, h2, hlen, hmid⟩ := ih h
        exact ⟨c :: pre, d1, mid, d2, post, by rw [heq]; rfl, h1, h2, hlen, hmid⟩
  · intro h
    obtain ⟨pre, d1, mid, d2, post, heq, h1, h2, hlen, hmid⟩ := h
    rw [heq]
    exact searchPhone_append pre _ (phoneCore_complete d1 mid d2 post h1 h2 hlen hmid)

/-- C8 counterexample: the bio of nine hyphens is a substring of at
least 9 digit/space/hyphen characters, yet `hasPhone` is false — the
pattern demands a digit at each end, so the claimed "if and only if"
fails on this input. -/
theorem phone_hyphens_cex :
    ¬ (((detect_contacts "---------").2 = true) ↔ ClaimPhoneSub ("---------".toList)) := by
  intro h
  have h1 : ClaimPhoneSub ("---------".toList) :=
    ⟨[], "---------".toList, [], by simp, by decide, by decide⟩
  have h2 := h.mpr h1
  exact absurd h2 (by decide)

/-- C8 amended: for every bio, `hasPhone` is true if and only if the bio
contains a substring of at least 9 digit/whitespace/hyphen characters
that begins and ends with a digit (optionally preceded by `+`, which is
redundant for existence of a match). -/
theorem has_phone_iff_bounded_digit_substring (bio : String) :
    (detect_contacts bio).2 = true ↔ PhoneSub bio.toList := by
  unfold detect_contacts
  by_cases hb : bio = ""
  · subst hb
    rw [if_pos rfl]
    constructor
    · intro h; cases h
    · intro h
      obtain ⟨pre, d1, mid, d2, post, heq, _⟩ := h
      simp at heq
  · rw [if_neg hb]
    exact searchPhone_iff bio.toList

end Scraper
